import Mathlib

/-!
# Verification of the MyFinGPT orchestration core

Shallow embedding of the state-merge and conditional-routing core of the
MyFinGPT multi-agent pipeline:

* `src/backend/src/models/state.py` — the `AgentState` record and its five
  field reducers (`first_value_reducer`, `dict_merge_reducer`,
  `list_extend_reducer`, `latest_datetime_reducer`, `optional_string_reducer`);
* `src/backend/src/utils/context_merger.py` — `ContextMerger`'s fan-in merge
  utilities (`merge_citations`, `merge_errors`, `merge_token_usage`);
* `src/backend/src/utils/query_intent.py` — `QueryIntentClassifier`
  (keyword flags, `determine_query_type`, `classify`);
* `src/backend/src/orchestrator/workflow.py` — the stage wrappers
  (`research_node`) and the conditional-routing node
  (`route_advanced_agents`);
* `src/backend/src/agents/base_agent.py`, `research_agent.py`,
  `comparison_agent.py`, `trend_agent.py` — `validate_state` and the agents'
  `execute` control flow.

Python dictionaries are modelled as insertion-ordered association lists
(`Dict`): `dupdate` mirrors `d[k] = v` (replace in place keeping the key's
position, else append), `dlookup` mirrors `d.get(k)`, `dmem` mirrors
`k in d`.  A genuine Python dict never holds a duplicate key, so lemmas that
need it take a `Nodup` hypothesis on the key list.  Python `==` on dicts
ignores insertion order; `pyDictEq` implements that (equal key sets, equal
values per key).  External effects (MCP data fetches, LLM completions, the
query parser) are passed in as explicit capability arguments; a call that
may raise is modelled with `Except` / `Option`.
-/

/-- Python dict model: insertion-ordered association list. -/
abbrev Dict (α β : Type) : Type := List (α × β)

/-- `d.get(k)`: value of the first (and, for a real dict, only) entry with key `k`. -/
def dlookup [BEq α] (d : Dict α β) (k : α) : Option β :=
  (d.find? (fun p => p.1 == k)).map (·.2)

/-- `k in d`. -/
def dmem [BEq α] (d : Dict α β) (k : α) : Bool :=
  d.any (fun p => p.1 == k)

/-- `d[k] = v`: replace the entry in place if the key is present (its position
is kept), otherwise append the new entry at the end — Python's dict
assignment.  (On a genuine dict the key occurs at most once, so replacing the
first occurrence is replacing the occurrence.) -/
def dupdate [BEq α] : Dict α β → α → β → Dict α β
  | [], k, v => [(k, v)]
  | p :: rest, k, v => if p.1 == k then (k, v) :: rest else p :: dupdate rest k v

/-- `list(d.keys())`. -/
def dkeys (d : Dict α β) : List α := d.map Prod.fst

/-- Python `==` on dicts: same key set and equal value at every key
(insertion order is ignored). -/
def pyDictEq [BEq α] [BEq β] (a b : Dict α β) : Bool :=
  a.all (fun p => dlookup b p.1 == some p.2)
    && b.all (fun p => dlookup a p.1 == some p.2)

/-! ## The five field reducers of `models/state.py`

`first_value_reducer` in the source takes `Any` arguments and dispatches on
`isinstance`; we mirror it on `FVal`, a sum of the value shapes the
first-value fields actually hold (`str` for transaction_id/session_id/query,
`list` for symbols, a datetime — modelled as a number — for created_at,
plus `None` for a field the framework initialised empty). -/

inductive FVal where
  | none
  | str (s : String)
  | list (xs : List String)
  | time (t : Nat)
deriving Repr, DecidableEq

/-- Python truthiness of an `FVal` (`bool(x)`). -/
def fvTruthy : FVal → Bool
  | .none => false
  | .str s => s ≠ ""
  | .list xs => !xs.isEmpty
  | .time _ => true

/-- `len(x)` for the values `len` is called on in the reducer. -/
def fvLen : FVal → Nat
  | .list xs => xs.length
  | .str s => s.length
  | _ => 0

def fvIsNone : FVal → Bool
  | .none => true
  | _ => false

def fvIsEmptyStr : FVal → Bool
  | .str "" => true
  | _ => false

def fvIsEmptyList : FVal → Bool
  | .list [] => true
  | _ => false

/-- `state.py` `first_value_reducer`: keep the left value, except that an
empty/None left is replaced by a truthy right (framework empty-state init). -/
def first_value_reducer (left right : FVal) : FVal :=
  if fvIsNone left then right
  else if fvIsEmptyStr left && fvTruthy right then right
  else if fvIsEmptyList left && fvTruthy right && decide (fvLen right > 0) then right
  else left

/-- `state.py` `dict_merge_reducer`: `result = left.copy() if left else {}`,
then `result.update(right)` when `right` is non-empty. -/
def dict_merge_reducer [BEq α] (left right : Dict α β) : Dict α β :=
  right.foldl (fun acc p => dupdate acc p.1 p.2) left

/-- `state.py` `list_extend_reducer`: copy `left`, then append each item of
`right` that is not already present (Python `item not in result`). -/
def list_extend_reducer [BEq β] (left right : List β) : List β :=
  right.foldl (fun acc item => if acc.contains item then acc else acc ++ [item]) left

/-- `state.py` `latest_datetime_reducer` (`None` is the only falsy datetime value). -/
def latest_datetime_reducer (left right : Option Nat) : Option Nat :=
  match left, right with
  | none, _ => right
  | some _, none => left
  | some l, some r => some (max l r)

/-- `state.py` `optional_string_reducer`: prefer a non-None right. -/
def optional_string_reducer (left right : Option String) : Option String :=
  if right.isSome then right else left

/-! ## The shared state record (`models/state.py` `AgentState`)

`AgentState` is a `TypedDict`; required scalar fields may be missing from a
concrete dict, which `Option` models (`none` = key absent).  Payloads fetched
from external collaborators (market data, LLM analyses) are opaque at this
layer and modelled as strings.  Timestamps are modelled as numbers. -/

/-- One token-usage record `{prompt_tokens, completion_tokens, total_tokens}`.
The source reads these counters with `usage.get(key, 0)`, so an absent counter
is the same as `0` and a three-field record is a faithful model. -/
structure TokenCounters where
  prompt_tokens : Nat
  completion_tokens : Nat
  total_tokens : Nat
deriving Repr, DecidableEq

/-- Componentwise sum — the `+=` loop body of `merge_token_usage`. -/
def addCounters (a b : TokenCounters) : TokenCounters :=
  ⟨a.prompt_tokens + b.prompt_tokens,
   a.completion_tokens + b.completion_tokens,
   a.total_tokens + b.total_tokens⟩

/-- A citation dict; the repository creates citations with exactly the keys
`source`, `symbol`, `type` (the spec calls the last one `kind`), and
`merge_citations` reads exactly these three with a `""` default. -/
structure Citation where
  source : String
  symbol : String
  type : String
deriving Repr, DecidableEq

/-- The dedup key `(source, symbol, type)` of `ContextMerger.merge_citations`. -/
def citationKey (c : Citation) : String × String × String :=
  (c.source, c.symbol, c.type)

/-- `research_data[symbol]` as built by `ResearchAgent.execute`:
`{price, company_info, source, timestamp}`; the two fetched payloads are
opaque here. -/
structure SymbolData where
  price : String
  company_info : String
  source : String
  timestamp : String
deriving Repr, DecidableEq

/-- The slice of `AgentState` the orchestration-core claims touch.
`none` on an `Option` field means the key is absent (or `None`); for
`intent_flags` the distinction between an absent key and an empty mapping
matters to the routing node, so it is `Option (Dict String Bool)`. -/
structure AgentState where
  transaction_id : Option String := none
  session_id : Option String := none
  query : Option String := none
  symbols : List String := []
  research_data : Dict String SymbolData := []
  analyst_data : Dict String String := []
  comparison_data : Option String := none
  trend_analysis : Dict String String := []
  query_type : Option String := none
  intent_flags : Option (Dict String Bool) := none
  errors : List String := []
  citations : List Citation := []
  token_usage : Dict String TokenCounters := []
  created_at : Option Nat := none
  updated_at : Option Nat := none
deriving Repr, DecidableEq

/-! ## `ContextMerger` (`utils/context_merger.py`) -/

namespace ContextMerger

/-- `merge_citations`: walk the states' citation lists in order, keeping a
citation only if its `(source, symbol, type)` key has not been seen.  The
Python `seen` set always equals the key set of the accumulated list, so the
membership test is expressed directly on the accumulator. -/
def merge_citations (states : List AgentState) : List Citation :=
  states.foldl
    (fun acc st =>
      st.citations.foldl
        (fun a c =>
          if a.any (fun c2 => citationKey c2 == citationKey c) then a else a ++ [c])
        acc)
    []

/-- `merge_errors`: order-preserving concatenation keeping only the first
occurrence of each message (the Python `seen` set equals the set of messages
already in the accumulated list). -/
def merge_errors (states : List AgentState) : List String :=
  states.foldl
    (fun acc st =>
      st.errors.foldl (fun a e => if a.contains e then a else a ++ [e]) acc)
    []

/-- `merge_token_usage`: per stage name, start from zero counters when the
name is new and add the state's counters field by field. -/
def merge_token_usage (states : List AgentState) : Dict String TokenCounters :=
  states.foldl
    (fun merged st =>
      st.token_usage.foldl
        (fun m p => dupdate m p.1 (addCounters ((dlookup m p.1).getD ⟨0, 0, 0⟩) p.2))
        merged)
    []

end ContextMerger

/-! ## Lemmas about the dedup fold and the token-usage fold -/

/-- The first-occurrence dedup step used by `merge_errors` and
`list_extend_reducer`. -/
def dedupStep [BEq β] (a : List β) (e : β) : List β :=
  if a.contains e then a else a ++ [e]


/-! ## `QueryIntentClassifier` (`utils/query_intent.py`)

`classify` is embedded with the query parser as an explicit capability
`parse : String -> Option ParsedResult` (`none` models a parser call that
raised, which the source catches).  The LLM refinement `_llm_classify`
always returns `{}` in the source (its JSON answer is deliberately not
parsed) and its failures are swallowed, so the refinement step is a no-op
and does not appear in the embedding. -/

namespace QueryIntentClassifier

def COMPARISON_KEYWORDS : List String :=
  ["compare", "comparison", "versus", "vs", "vs.", "against",
   "difference", "differences", "better", "best", "worse", "worst",
   "side by side", "side-by-side", "relative", "relatively"]

def TREND_KEYWORDS : List String :=
  ["trend", "trends", "trending", "pattern", "patterns",
   "direction", "momentum", "movement", "movements",
   "historical", "history", "over time", "performance",
   "chart", "charts", "technical", "technical analysis"]

def EDGAR_KEYWORDS : List String :=
  ["10-k", "10-q", "sec filing", "edgar", "filing", "filings",
   "annual report", "quarterly report", "form 10-k", "form 10-q",
   "sec", "securities and exchange commission"]

def COMPREHENSIVE_KEYWORDS : List String :=
  ["comprehensive", "complete", "full", "detailed", "deep dive",
   "in-depth", "thorough", "extensive", "all", "everything"]

/-- Does the character list start with the pattern? -/
def leadMatch : List Char → List Char → Bool
  | [], _ => true
  | _ :: _, [] => false
  | a :: cs, b :: ds => a == b && leadMatch cs ds

/-- Contiguous-sublist scan over a character list. -/
def subScan (pat : List Char) : List Char → Bool
  | [] => pat.isEmpty
  | b :: ds => leadMatch pat (b :: ds) || subScan pat ds

/-- Python `pat in s` on strings: contiguous substring test. -/
def strIn (pat s : String) : Bool := subScan pat.data s.data

/-- `query.lower()`, character by character (the keyword tables and the
queries of interest are ASCII, where Python's `lower` is exactly the
per-character ASCII mapping). -/
def pyLower (s : String) : String := ⟨s.data.map Char.toLower⟩

/-- `_is_comparison_query`: more than one symbol, or any comparison keyword
occurs in the lowercased query. -/
def is_comparison_query (query_lower : String) (symbols : List String) : Bool :=
  decide (symbols.length > 1)
    || COMPARISON_KEYWORDS.any (fun kw => strIn kw query_lower)

/-- `_is_trend_query`. -/
def is_trend_query (query_lower : String) : Bool :=
  TREND_KEYWORDS.any (fun kw => strIn kw query_lower)

/-- `_is_edgar_query`. -/
def is_edgar_query (query_lower : String) : Bool :=
  EDGAR_KEYWORDS.any (fun kw => strIn kw query_lower)

/-- `_is_comprehensive_query`. -/
def is_comprehensive_query (query_lower : String) : Bool :=
  COMPREHENSIVE_KEYWORDS.any (fun kw => strIn kw query_lower)

/-- `intent_flags.get(key)` with Python falsy default (`None` is falsy). -/
def get_flag (intent_flags : Dict String Bool) (k : String) : Bool :=
  (dlookup intent_flags k).getD false

/-- `_determine_query_type`: the fixed priority cascade over the intent
flags (filing > comparison > trend > comprehensive > single-entity). -/
def determine_query_type (intent_flags : Dict String Bool)
    (symbols : List String) : String :=
  if get_flag intent_flags "is_edgar" then "filing_analysis"
  else if get_flag intent_flags "is_comparison" || decide (symbols.length > 1) then
    (if get_flag intent_flags "is_comprehensive" then "comprehensive_comparison"
     else "comparison")
  else if get_flag intent_flags "is_trend" then
    (if get_flag intent_flags "is_comprehensive" then "comprehensive_trend"
     else "trend")
  else if get_flag intent_flags "is_comprehensive" then "comprehensive_analysis"
  else "single_entity"

/-- What `query_parser.parse` returns (the slice `classify` reads). -/
structure ParsedResult where
  symbols : List String
  intent_flags : Dict String Bool
  intent_type : Option String
deriving Repr, DecidableEq

/-- What `classify` returns (the slice the routing node reads). -/
structure Classification where
  query_type : String
  intent_flags : Dict String Bool
  symbols : List String
  original_query : String
deriving Repr, DecidableEq

/-- `classify`: extract symbols (falling back to the parser when none were
supplied), compute the rule-based flags on the lowercased query, then — the
parser being configured in the workflow — merge the parser's intent flags
with precedence (`dict.update`, i.e. `dict_merge_reducer`) and take the
parser's truthy `intent_type` if any, else `_determine_query_type`. -/
def classify (parse : String → Option ParsedResult) (query : String)
    (symbols0 : List String) : Classification :=
  let symbols :=
    if symbols0.isEmpty then
      match parse query with
      | some parsed => parsed.symbols
      | none => []
    else symbols0
  let query_lower := pyLower query
  let intent_flags : Dict String Bool :=
    [("is_comparison", is_comparison_query query_lower symbols),
     ("is_trend", is_trend_query query_lower),
     ("is_edgar", is_edgar_query query_lower),
     ("is_comprehensive", is_comprehensive_query query_lower),
     ("is_single_entity", symbols.length == 1),
     ("is_multi_entity", decide (symbols.length > 1))]
  match parse query with
  | some parsed =>
    let intent_flags := dict_merge_reducer intent_flags parsed.intent_flags
    let query_type :=
      match parsed.intent_type with
      | some t => if t == "" then determine_query_type intent_flags symbols else t
      | none => determine_query_type intent_flags symbols
    ⟨query_type, intent_flags, symbols, query⟩
  | none =>
    ⟨determine_query_type intent_flags symbols, intent_flags, symbols, query⟩

end QueryIntentClassifier

/-! ## Agents (`agents/*.py`) -/

namespace BaseAgent

/-- `base_agent.py` `validate_state`: all of `transaction_id`, `session_id`,
`query` must be present in the state dict. -/
def validate_state (state : AgentState) : Bool :=
  state.transaction_id.isSome && state.session_id.isSome && state.query.isSome

end BaseAgent

namespace ResearchAgent

/-- `research_agent.py` `execute`.  `fetchPrice`/`fetchInfo` are the two
`mcp_client.call_tool` calls for a symbol (`.error` = the call raised);
`nowIso`/`now` stand for `datetime.utcnow()`.  The optional ingestion
service is not configured here; its failures are swallowed by the source
anyway.  A fetch failure for one symbol is caught inside the loop, recorded
in `errors`, and the loop continues; at the end `research_data` is assigned
the freshly built dict. -/
def execute (fetchPrice fetchInfo : String → Except String String)
    (nowIso : String) (now : Nat) (state : AgentState) : AgentState :=
  if !(BaseAgent.validate_state state) then
    { state with errors := state.errors ++ ["Invalid state for ResearchAgent"] }
  else
    let stepFn := fun (acc : AgentState × Dict String SymbolData) (symbol : String) =>
      match fetchPrice symbol with
      | .error e =>
        ({ acc.1 with
            errors := acc.1.errors
              ++ ["Failed to fetch data for " ++ symbol ++ ": " ++ e] }, acc.2)
      | .ok price_data =>
        match fetchInfo symbol with
        | .error e =>
          ({ acc.1 with
              errors := acc.1.errors
                ++ ["Failed to fetch data for " ++ symbol ++ ": " ++ e] }, acc.2)
        | .ok company_info =>
          ({ acc.1 with
              citations := acc.1.citations
                ++ [⟨"Yahoo Finance", symbol, "price_data"⟩] },
           dupdate acc.2 symbol ⟨price_data, company_info, "yahoo_finance", nowIso⟩)
    let r := state.symbols.foldl stepFn (state, [])
    { r.1 with research_data := r.2, updated_at := some now }

end ResearchAgent

namespace TrendAgent

/-- `trend_agent.py` `execute`.  `analyze` is `_analyze_trend` (statistics +
LLM, external at this layer; `.error` = it raised).  Per symbol: skip when
the symbol has no research data; on success write
`trend_analysis[symbol]`; on failure append to `errors` and continue. -/
def execute (analyze : String → SymbolData → Except String String) (now : Nat)
    (state : AgentState) : AgentState :=
  if !(BaseAgent.validate_state state) then
    { state with errors := state.errors ++ ["Invalid state for TrendAgent"] }
  else if state.research_data.isEmpty then
    { state with
        errors := state.errors ++ ["No research data available for trend analysis"] }
  else
    let research_data := state.research_data
    let stepFn := fun (st : AgentState) (symbol : String) =>
      match dlookup research_data symbol with
      | none => st
      | some symbolData =>
        match analyze symbol symbolData with
        | .ok trend_result =>
          { st with trend_analysis := dupdate st.trend_analysis symbol trend_result }
        | .error e =>
          { st with
              errors := st.errors
                ++ ["Failed to analyze trends for " ++ symbol ++ ": " ++ e] }
    let st := state.symbols.foldl stepFn state
    { st with updated_at := some now }

end TrendAgent

namespace ComparisonAgent

/-- `comparison_agent.py` `execute`.  The two comparison builders
(`_benchmark_comparison`, `_side_by_side_comparison`) compose metric
extraction with an LLM call, so they are capabilities here; the result value
is opaque.  With `len(symbols) < 2` the source indexes `symbols[0]`, which
raises `IndexError` on an empty symbol list — hence the `Except` result. -/
def execute
    (benchmark_comparison : String → Dict String SymbolData → Dict String String → String)
    (side_by_side_comparison : List String → Dict String SymbolData → Dict String String → String)
    (now : Nat) (state : AgentState) : Except String AgentState :=
  if !(BaseAgent.validate_state state) then
    .ok { state with errors := state.errors ++ ["Invalid state for ComparisonAgent"] }
  else
    let research_data := state.research_data
    let analyst_data := state.analyst_data
    let symbols := state.symbols
    if research_data.isEmpty then
      .ok { state with
              errors := state.errors ++ ["No research data available for comparison"] }
    else if symbols.length < 2 then
      match symbols with
      | [] => .error "IndexError: list index out of range"
      | s0 :: _ =>
        .ok { state with
                comparison_data :=
                  some (benchmark_comparison s0 research_data analyst_data),
                updated_at := some now }
    else
      .ok { state with
              comparison_data :=
                some (side_by_side_comparison symbols research_data analyst_data),
              updated_at := some now }

end ComparisonAgent

/-! ## Workflow nodes (`orchestrator/workflow.py`) -/

/-- A notification sent to the progress tracker
(`start_agent` / `complete_agent` / `fail_agent`). -/
inductive ProgressEvent where
  | started (agent : String) (tasks : List String)
  | completed (agent : String)
  | failed (agent : String) (message : String)
deriving Repr, DecidableEq

/-- Python truthiness of `state.get(field)` for an optional string field. -/
def pyTruthyOptStr : Option String → Bool
  | some s => s ≠ ""
  | none => false

namespace MyFinGPTWorkflow

/-- `_research_node`: emit the start notification, run the wrapped agent;
on success emit `complete` and return the result, on an exception emit
`fail` and re-raise (`raise` in the `except` block). -/
def research_node (agentExecute : AgentState → Except String AgentState)
    (state : AgentState) : List ProgressEvent × Except String AgentState :=
  let startEv := ProgressEvent.started "ResearchAgent"
    ["Gathering market data", "Fetching company information"]
  match agentExecute state with
  | .ok result => ([startEv, .completed "ResearchAgent"], .ok result)
  | .error e => ([startEv, .failed "ResearchAgent" e], .error e)

/-- `_route_advanced_agents`.  The skip test is
`"query_type" in state and state.get("query_type") and "intent_flags" in
state`; otherwise classify and write `query_type` and `intent_flags` back,
and adopt the classifier's symbols only when the state had none.  The
intent classifier always exists when this node does (the node is only added
when `enable_conditional` is true, which constructs the classifier), so the
`no classifier` early return is not modelled. -/
def route_advanced_agents (parse : String → Option QueryIntentClassifier.ParsedResult)
    (state : AgentState) : AgentState :=
  if pyTruthyOptStr state.query_type && state.intent_flags.isSome then state
  else
    let query := state.query.getD ""
    let symbols := state.symbols
    let classification := QueryIntentClassifier.classify parse query symbols
    let state1 := { state with
      query_type := some classification.query_type,
      intent_flags := some classification.intent_flags }
    if !classification.symbols.isEmpty && symbols.isEmpty then
      { state1 with symbols := classification.symbols }
    else state1

end MyFinGPTWorkflow


/-! ## Concrete fixtures used by the closed theorems -/

/-- A parser capability whose every call raises (the source catches this and
falls back to rule-based classification). -/
def parseNone : String → Option QueryIntentClassifier.ParsedResult := fun _ => none

/-- A minimal valid state (all three required fields present). -/
def sBase : AgentState :=
  { transaction_id := some "t1", session_id := some "s1", query := some "hi" }

/-- Intent flags with both optional-stage flags explicitly off. -/
def flagsOff : Dict String Bool := [("is_comparison", false), ("is_trend", false)]

/-- A valid state carrying research data for AAPL whose intent flags say
neither comparison nor trend is wanted. -/
def sC2 : AgentState :=
  { transaction_id := some "t1", session_id := some "s1", query := some "hi",
    symbols := ["AAPL"],
    research_data := [("AAPL", ⟨"px", "info", "yahoo_finance", "ts"⟩)],
    query_type := some "single_entity",
    intent_flags := some flagsOff }

/-- A trend capability that always succeeds. -/
def azStub : String → SymbolData → Except String String := fun _ _ => .ok "uptrend-analysis"

/-- Comparison capabilities with fixed results. -/
def benchStub : String → Dict String SymbolData → Dict String String → String :=
  fun _ _ _ => "benchmark-result"

def sideStub : List String → Dict String SymbolData → Dict String String → String :=
  fun _ _ _ => "side-by-side-result"

/-- Fetch capabilities that always succeed. -/
def fpStub : String → Except String String := fun _ => .ok "px"

def fiStub : String → Except String String := fun _ => .ok "info"

/-- A state missing the required `query` field. -/
def sC3 : AgentState :=
  { transaction_id := some "t1", session_id := some "s1", query := none,
    symbols := ["AAPL"] }

/-- A valid two-symbol state for the fetch-failure scenario. -/
def sC4 : AgentState :=
  { transaction_id := some "t1", session_id := some "s1", query := some "hi",
    symbols := ["AAPL", "MSFT"] }

/-- Price fetch that raises for AAPL and succeeds for MSFT. -/
def fpW : String → Except String String :=
  fun symbol => if symbol == "AAPL" then .error "boom" else .ok "px"

/-- A pre-classified state whose `query_type` is the *empty string*
(non-null but falsy) with non-empty intent flags. -/
def sC6 : AgentState :=
  { transaction_id := some "t1", session_id := some "s1", query := some "hi",
    symbols := ["AAPL"], query_type := some "",
    intent_flags := some [("is_trend", true)] }

/-- A state with a truthy `query_type` but no `intent_flags` key at all. -/
def sC10 : AgentState :=
  { transaction_id := some "t1", session_id := some "s1", query := some "hi",
    symbols := ["AAPL"], query_type := some "comparison", intent_flags := none }

/-- A fully pre-classified state (truthy `query_type`, `intent_flags` present). -/
def sPre : AgentState :=
  { transaction_id := some "t1", session_id := some "s1", query := some "hi",
    symbols := ["AAPL"], query_type := some "comparison",
    intent_flags := some [("is_comparison", true)] }

/-- The citation of the spec example. -/
def yahooCitation : Citation := ⟨"Yahoo Finance", "AAPL", "price_data"⟩

/-- Two branch states that each carry the same Yahoo-Finance citation. -/
def sCitA : AgentState :=
  { transaction_id := some "t1", session_id := some "s1", query := some "hi",
    citations := [yahooCitation] }

def sCitB : AgentState :=
  { transaction_id := some "t1", session_id := some "s1", query := some "hi",
    citations := [yahooCitation] }

/-- Two branch states whose token usage for `AnalystAgent` is 100 and 50
total tokens respectively. -/
def sTok100 : AgentState :=
  { transaction_id := some "t1", session_id := some "s1", query := some "hi",
    token_usage := [("AnalystAgent", ⟨0, 0, 100⟩)] }

def sTok50 : AgentState :=
  { transaction_id := some "t1", session_id := some "s1", query := some "hi",
    token_usage := [("AnalystAgent", ⟨0, 0, 50⟩)] }

/-! ## Basic dictionary lemmas -/

theorem dmem_iff [BEq α] [LawfulBEq α] (d : Dict α β) (k : α) :
    dmem d k = true ↔ k ∈ dkeys d := by
  induction d with
  | nil => simp [dmem, dkeys]
  | cons p rest ih =>
    simp only [dmem, List.any_cons, dkeys, List.map_cons, List.mem_cons] at *
    constructor
    · intro h
      rcases Bool.or_eq_true_iff.mp h with h | h
      · exact Or.inl (beq_iff_eq.mp h).symm
      · exact Or.inr (ih.mp h)
    · intro h
      rcases h with h | h
      · exact Bool.or_eq_true_iff.mpr (Or.inl (beq_iff_eq.mpr h.symm))
      · exact Bool.or_eq_true_iff.mpr (Or.inr (ih.mpr h))

theorem dmem_false_iff [BEq α] [LawfulBEq α] (d : Dict α β) (k : α) :
    dmem d k = false ↔ k ∉ dkeys d := by
  rw [← dmem_iff (d := d) (k := k)]
  cases h : dmem d k <;> simp [h]

theorem dlookup_dupdate_self [BEq α] [LawfulBEq α] (d : Dict α β) (k : α) (v : β) :
    dlookup (dupdate d k v) k = some v := by
  induction d with
  | nil => simp [dupdate, dlookup, List.find?]
  | cons p rest ih =>
    by_cases hp : (p.1 == k) = true
    · simp [dupdate, hp, dlookup, List.find?]
    · simp only [dupdate, hp, Bool.false_eq_true, if_false]
      simpa [dlookup, List.find?, hp] using ih

theorem dlookup_dupdate_ne [BEq α] [LawfulBEq α] (d : Dict α β) (k k' : α) (v : β)
    (h : k' ≠ k) : dlookup (dupdate d k v) k' = dlookup d k' := by
  have hkk : (k == k') = false := by
    simp only [beq_eq_false_iff_ne]; exact fun hh => h hh.symm
  induction d with
  | nil => simp [dupdate, dlookup, List.find?, hkk]
  | cons p rest ih =>
    by_cases hp : (p.1 == k) = true
    · have hpk' : (p.1 == k') = false := by
        rw [beq_iff_eq.mp hp]; exact hkk
      simp [dupdate, hp, dlookup, List.find?, hkk, hpk']
    · simp only [dupdate, hp, Bool.false_eq_true, if_false]
      by_cases hq : (p.1 == k') = true
      · simp [dlookup, List.find?, hq]
      · simpa [dlookup, List.find?, hq] using ih

theorem dlookup_append [BEq α] (X Y : Dict α β) (k : α) :
    dlookup (X ++ Y) k = (dlookup X k).or (dlookup Y k) := by
  induction X with
  | nil => simp [dlookup]
  | cons p rest ih =>
    by_cases hp : p.1 == k
    · simp [dlookup, List.find?, hp]
    · simp only [List.cons_append, dlookup, List.find?, hp] at *
      exact ih

theorem dlookup_eq_of_mem [BEq α] [LawfulBEq α] (d : Dict α β) (p : α × β)
    (hmem : p ∈ d) (hnd : (dkeys d).Nodup) : dlookup d p.1 = some p.2 := by
  induction d with
  | nil => cases hmem
  | cons q rest ih =>
    rcases List.mem_cons.mp hmem with h | h
    · subst h
      simp [dlookup, List.find?]
    · have hq : (q.1 == p.1) = false := by
        simp only [beq_eq_false_iff_ne]
        intro he
        have : p.1 ∈ dkeys rest := List.mem_map.mpr ⟨p, h, rfl⟩
        rw [← he] at this
        exact (List.nodup_cons.mp (by simpa [dkeys] using hnd)).1 this
      simp only [dlookup, List.find?, hq]
      exact ih h (List.nodup_cons.mp (by simpa [dkeys] using hnd)).2

theorem dlookup_eq_none [BEq α] [LawfulBEq α] (d : Dict α β) (k : α)
    (h : k ∉ dkeys d) : dlookup d k = none := by
  induction d with
  | nil => simp [dlookup]
  | cons p rest ih =>
    have hp : (p.1 == k) = false := by
      simp only [beq_eq_false_iff_ne]
      intro he
      exact h (by simp [dkeys, he])
    simp only [dlookup, List.find?, hp]
    exact ih (fun hm => h (by simp [dkeys] at hm ⊢; exact Or.inr hm))

theorem dupdate_eq_append [BEq α] [LawfulBEq α] (d : Dict α β) (k : α) (v : β)
    (h : k ∉ dkeys d) : dupdate d k v = d ++ [(k, v)] := by
  induction d with
  | nil => simp [dupdate]
  | cons p rest ih =>
    have hp : (p.1 == k) = false := by
      simp only [beq_eq_false_iff_ne]
      intro he
      exact h (by simp [dkeys, he])
    simp only [dupdate, hp, Bool.false_eq_true, if_false, List.cons_append,
      List.cons.injEq, true_and]
    exact ih (fun hm => h (by simp [dkeys] at hm ⊢; exact Or.inr hm))

/-- Folding `d[k] = v` over a batch of fresh, pairwise-distinct keys just
appends the batch — the heart of `dict.update` on disjoint dicts. -/
theorem foldl_dupdate_append [BEq α] [LawfulBEq α] (d acc : Dict α β)
    (hfresh : ∀ k, k ∈ dkeys d → k ∉ dkeys acc) (hnd : (dkeys d).Nodup) :
    d.foldl (fun a p => dupdate a p.1 p.2) acc = acc ++ d := by
  induction d generalizing acc with
  | nil => simp
  | cons p rest ih =>
    have hnd2 : (p.1 :: dkeys rest).Nodup := by
      simpa only [dkeys, List.map_cons] using hnd
    have hnd' := List.nodup_cons.mp hnd2
    have h1 : dupdate acc p.1 p.2 = acc ++ [p] := by
      rw [dupdate_eq_append acc p.1 p.2
        (hfresh p.1 (by simp [dkeys]))]
    simp only [List.foldl_cons, h1]
    rw [ih (acc ++ [p])]
    · simp
    · intro k hk
      have hk' : k ∈ dkeys rest := hk
      simp only [dkeys, List.map_append, List.mem_append]
      rintro (hin | hin)
      · refine hfresh k ?_ hin
        simp only [dkeys, List.map_cons, List.mem_cons]
        exact Or.inr hk'
      · simp only [dkeys, List.map_cons, List.map_nil, List.mem_singleton] at hin
        exact hnd'.1 (hin ▸ hk')
    · exact hnd'.2

theorem dict_merge_reducer_disjoint_eq_append [BEq α] [LawfulBEq α]
    (A B : Dict α β) (hB : (dkeys B).Nodup)
    (hdisj : ∀ k, k ∈ dkeys B → k ∉ dkeys A) :
    dict_merge_reducer A B = A ++ B :=
  foldl_dupdate_append B A hdisj hB

/-- Two association lists holding the same entries in either order are equal
as Python dicts, provided keys are unique and the two halves are disjoint. -/
theorem pyDictEq_append_comm [BEq α] [LawfulBEq α] [BEq β] [LawfulBEq β]
    (A B : Dict α β) (hA : (dkeys A).Nodup) (hB : (dkeys B).Nodup)
    (hdisj : ∀ k, k ∈ dkeys A → k ∉ dkeys B) :
    pyDictEq (A ++ B) (B ++ A) = true := by
  have hAB : (dkeys (A ++ B)).Nodup := by
    simp only [dkeys, List.map_append]
    exact List.Nodup.append hA hB (fun k ha hb => hdisj k ha hb)
  have hBA : (dkeys (B ++ A)).Nodup := by
    simp only [dkeys, List.map_append]
    exact List.Nodup.append hB hA (fun k hb ha => hdisj k ha hb)
  have key : ∀ (X Y : Dict α β), (dkeys X).Nodup → (dkeys Y).Nodup →
      (∀ k, k ∈ dkeys X → k ∉ dkeys Y) →
      ∀ p ∈ X ++ Y, dlookup (Y ++ X) p.1 = some p.2 := by
    intro X Y hX hY hd p hp
    rcases List.mem_append.mp hp with hin | hin
    · have h1 : dlookup Y p.1 = none :=
        dlookup_eq_none Y p.1 (hd p.1 (List.mem_map.mpr ⟨p, hin, rfl⟩))
      rw [dlookup_append, h1, Option.none_or]
      exact dlookup_eq_of_mem X p hin hX
    · have h1 : dlookup Y p.1 = some p.2 := dlookup_eq_of_mem Y p hin hY
      rw [dlookup_append, h1]
      rfl
  have hd' : ∀ k, k ∈ dkeys B → k ∉ dkeys A := fun k hb ha => hdisj k ha hb
  unfold pyDictEq
  rw [Bool.and_eq_true]
  constructor
  · rw [List.all_eq_true]
    intro p hp
    rw [key A B hA hB hdisj p hp]
    exact beq_self_eq_true _
  · rw [List.all_eq_true]
    intro p hp
    rw [key B A hB hA hd' p hp]
    exact beq_self_eq_true _

theorem dedupStep_eq (a : List String) (e : String) :
    (if a.contains e then a else a ++ [e]) = dedupStep a e := rfl

theorem contains_true_iff [BEq β] [LawfulBEq β] (l : List β) (x : β) :
    l.contains x = true ↔ x ∈ l :=
  ⟨List.mem_of_elem_eq_true, List.elem_eq_true_of_mem⟩

theorem foldl_dedupStep_nodup [BEq β] [LawfulBEq β] (l : List β) (a : List β)
    (ha : a.Nodup) : (l.foldl dedupStep a).Nodup := by
  induction l generalizing a with
  | nil => simpa using ha
  | cons e rest ih =>
    simp only [List.foldl_cons]
    by_cases h : a.contains e = true
    · rw [show dedupStep a e = a from by simp only [dedupStep, h, if_true]]
      exact ih a ha
    · have hne : e ∉ a := fun hm => h ((contains_true_iff a e).mpr hm)
      rw [show dedupStep a e = a ++ [e] from by
        simp only [dedupStep, h, Bool.false_eq_true, if_false]]
      refine ih (a ++ [e]) ?_
      rw [List.nodup_append]
      refine ⟨ha, List.nodup_singleton e, ?_⟩
      intro x hx hxe
      rw [List.mem_singleton] at hxe
      exact hne (hxe ▸ hx)

theorem foldl_dedupStep_sublist [BEq β] (l : List β) (a : List β) :
    ∃ t, l.foldl dedupStep a = a ++ t ∧ t.Sublist l := by
  induction l generalizing a with
  | nil => exact ⟨[], by simp⟩
  | cons e rest ih =>
    simp only [List.foldl_cons]
    by_cases h : a.contains e = true
    · obtain ⟨t, ht, hs⟩ := ih a
      refine ⟨t, ?_, hs.cons e⟩
      rw [show dedupStep a e = a from by simp only [dedupStep, h, if_true]]
      exact ht
    · obtain ⟨t, ht, hs⟩ := ih (a ++ [e])
      refine ⟨e :: t, ?_, hs.cons₂ e⟩
      rw [show dedupStep a e = a ++ [e] from by
        simp only [dedupStep, h, Bool.false_eq_true, if_false]]
      rw [ht, List.append_assoc]
      rfl

theorem mem_foldl_dedupStep [BEq β] [LawfulBEq β] (l : List β) (a : List β) (x : β) :
    x ∈ l.foldl dedupStep a ↔ x ∈ a ∨ x ∈ l := by
  induction l generalizing a with
  | nil => simp
  | cons e rest ih =>
    simp only [List.foldl_cons]
    by_cases h : a.contains e = true
    · have he : e ∈ a := (contains_true_iff a e).mp h
      rw [show dedupStep a e = a from by simp only [dedupStep, h, if_true]]
      rw [ih a]
      constructor
      · rintro (hx | hx)
        · exact Or.inl hx
        · exact Or.inr (List.mem_cons.mpr (Or.inr hx))
      · rintro (hx | hx)
        · exact Or.inl hx
        · rcases List.mem_cons.mp hx with hx | hx
          · exact Or.inl (hx ▸ he)
          · exact Or.inr hx
    · rw [show dedupStep a e = a ++ [e] from by
        simp only [dedupStep, h, Bool.false_eq_true, if_false]]
      rw [ih (a ++ [e])]
      simp only [List.mem_append, List.mem_singleton, List.mem_cons]
      tauto

theorem foldl_dedupStep_fresh [BEq β] [LawfulBEq β] (r a : List β)
    (hnd : r.Nodup) (hdisj : ∀ x ∈ r, x ∉ a) : r.foldl dedupStep a = a ++ r := by
  induction r generalizing a with
  | nil => simp
  | cons e rest ih =>
    have hnd' := List.nodup_cons.mp hnd
    have he : e ∉ a := hdisj e (List.mem_cons_self e rest)
    have hc : a.contains e = false := by
      cases hcc : a.contains e with
      | false => rfl
      | true => exact absurd ((contains_true_iff a e).mp hcc) he
    simp only [List.foldl_cons]
    rw [show dedupStep a e = a ++ [e] from by
      simp only [dedupStep, hc, Bool.false_eq_true, if_false]]
    rw [ih (a ++ [e]) hnd'.2]
    · simp
    · intro x hx
      simp only [List.mem_append, List.mem_singleton]
      rintro (hin | hin)
      · exact hdisj x (List.mem_cons.mpr (Or.inr hx)) hin
      · exact hnd'.1 (hin ▸ hx)

/-- Folding a fold over every block equals folding over the concatenation. -/
theorem foldl_blocks_eq_flatten (ss : List (List String)) (a : List String) :
    ss.foldl (fun acc l => l.foldl dedupStep acc) a = ss.flatten.foldl dedupStep a := by
  induction ss generalizing a with
  | nil => rfl
  | cons l rest ih =>
    simp only [List.foldl_cons, List.flatten_cons, List.foldl_append]
    exact ih (l.foldl dedupStep a)

theorem merge_errors_eq_foldl (states : List AgentState) :
    ContextMerger.merge_errors states
      = ((states.map AgentState.errors).flatten).foldl dedupStep [] := by
  show states.foldl (fun acc st => st.errors.foldl dedupStep acc) [] = _
  rw [← foldl_blocks_eq_flatten]
  rw [List.foldl_map AgentState.errors (fun acc l => l.foldl dedupStep acc) states []]

/-- Tracking a lookup through the `merge_token_usage` inner loop: a name
absent from the batch keeps its value, a name present gets the batch's
counters added on top of its current value (zero if new). -/
theorem dlookup_foldl_tuStep (tu m : Dict String TokenCounters) (name : String)
    (hnd : (dkeys tu).Nodup) :
    dlookup
      (tu.foldl
        (fun m2 p => dupdate m2 p.1 (addCounters ((dlookup m2 p.1).getD ⟨0, 0, 0⟩) p.2))
        m) name
      = match dlookup tu name with
        | none => dlookup m name
        | some u => some (addCounters ((dlookup m name).getD ⟨0, 0, 0⟩) u) := by
  induction tu generalizing m with
  | nil => simp [dlookup]
  | cons p rest ih =>
    have hnd2 : (p.1 :: dkeys rest).Nodup := by
      simpa only [dkeys, List.map_cons] using hnd
    have hnd' := List.nodup_cons.mp hnd2
    simp only [List.foldl_cons]
    rw [ih _ hnd'.2]
    by_cases hp : p.1 = name
    · subst hp
      have hrest : dlookup rest p.1 = none := dlookup_eq_none rest p.1 hnd'.1
      rw [hrest]
      have hhead : dlookup (p :: rest) p.1 = some p.2 := by
        simp [dlookup, List.find?]
      rw [hhead, dlookup_dupdate_self]
    · have hhead : dlookup (p :: rest) name = dlookup rest name := by
        have : (p.1 == name) = false := by simpa [beq_eq_false_iff_ne] using hp
        simp [dlookup, List.find?, this]
      rw [hhead, dlookup_dupdate_ne m p.1 name _ (fun hh => hp hh.symm)]

/-! ## Claim theorems -/

/-- **C7, counterexample.**  The claim "merge(∅, X) = X for every declared
field" fails for the list fields (`errors`, `citations`): merging the empty
list on the left deduplicates the right-hand list, so a right-hand value
with a repeated element is not reproduced. -/
theorem C7_list_left_identity_counterexample :
    list_extend_reducer ([] : List String) ["e", "e"] = ["e"]
    ∧ list_extend_reducer ([] : List String) ["e", "e"] ≠ ["e", "e"] := by
  decide

/-- **C7 (amended).**  Identity laws for all five declared reducers at their
field types, with the field-appropriate empty value: both directions hold
unconditionally for `first_value_reducer` (string fields with `""`, list
fields with `[]`, and `None`), for `optional_string_reducer` and
`latest_datetime_reducer` (with `None`), and for the right identity of
`dict_merge_reducer` and `list_extend_reducer`; the left identity of
`dict_merge_reducer` holds for every genuine dict (no duplicate keys), and
the left identity of `list_extend_reducer` only for duplicate-free lists —
merging `[]` with a list that repeats an element deduplicates it. -/
theorem C7_reducer_identity_laws :
    (∀ s : String, first_value_reducer (.str "") (.str s) = .str s
        ∧ first_value_reducer (.str s) (.str "") = .str s)
    ∧ (∀ xs : List String, first_value_reducer (.list []) (.list xs) = .list xs
        ∧ first_value_reducer (.list xs) (.list []) = .list xs)
    ∧ (∀ v : FVal, first_value_reducer .none v = v
        ∧ first_value_reducer v .none = v)
    ∧ (∀ (β : Type) (d : Dict String β), (dkeys d).Nodup →
        dict_merge_reducer ([] : Dict String β) d = d)
    ∧ (∀ (β : Type) (d : Dict String β), dict_merge_reducer d ([] : Dict String β) = d)
    ∧ (∀ r : Option String, optional_string_reducer none r = r)
    ∧ (∀ l : Option String, optional_string_reducer l none = l)
    ∧ (∀ t : Option Nat, latest_datetime_reducer none t = t
        ∧ latest_datetime_reducer t none = t)
    ∧ (∀ (β : Type) (_ : BEq β) (l : List β), list_extend_reducer l [] = l)
    ∧ (∀ r : List String, r.Nodup → list_extend_reducer [] r = r) := by
  refine ⟨?_, ?_, ?_, ?_, ?_, ?_, ?_, ?_, ?_, ?_⟩
  · intro s
    constructor
    · by_cases hs : s = ""
      · subst hs; rfl
      · simp [first_value_reducer, fvIsNone, fvIsEmptyStr, fvIsEmptyList, fvTruthy, hs]
    · by_cases hs : s = ""
      · subst hs; rfl
      · have : fvIsEmptyStr (.str s) = false := by
          cases s with
          | mk data => cases data with
            | nil => exact absurd rfl hs
            | cons c cs => rfl
        simp [first_value_reducer, fvIsNone, fvIsEmptyList, fvTruthy, this]
  · intro xs
    constructor
    · cases xs with
      | nil => rfl
      | cons x rest =>
        simp [first_value_reducer, fvIsNone, fvIsEmptyStr, fvIsEmptyList, fvTruthy,
          fvLen, List.isEmpty]
    · cases xs with
      | nil => rfl
      | cons x rest => rfl
  · intro v
    constructor
    · rfl
    · cases v with
      | none => rfl
      | str s => cases s with
        | mk data => cases data with
          | nil => rfl
          | cons c cs => rfl
      | list xs => cases xs with
        | nil => rfl
        | cons x rest => rfl
      | time t => rfl
  · intro β d hnd
    show d.foldl (fun acc p => dupdate acc p.1 p.2) [] = d
    have := foldl_dupdate_append d ([] : Dict String β) (by simp [dkeys]) hnd
    simpa using this
  · intro β d
    rfl
  · intro r
    cases r with
    | none => rfl
    | some v => rfl
  · intro l
    rfl
  · intro t
    exact ⟨by cases t <;> rfl, by cases t <;> rfl⟩
  · intro β _ l
    rfl
  · intro r hnd
    show r.foldl dedupStep [] = r
    simpa using foldl_dedupStep_fresh r [] hnd (by simp)

/-- **C7 witness.**  The conditional identity laws evaluated on concrete
inputs: a one-entry dict and a duplicate-free two-element list. -/
theorem C7_reducer_identity_laws_witness :
    (dkeys ([("AAPL", "a")] : Dict String String)).Nodup
    ∧ dict_merge_reducer ([] : Dict String String) [("AAPL", "a")] = [("AAPL", "a")]
    ∧ (["e1", "e2"] : List String).Nodup
    ∧ list_extend_reducer ([] : List String) ["e1", "e2"] = ["e1", "e2"] := by
  refine ⟨by decide, ?_, by decide, ?_⟩
  · exact C7_reducer_identity_laws.2.2.2.1 String [("AAPL", "a")] (by decide)
  · exact C7_reducer_identity_laws.2.2.2.2.2.2.2.2.2 ["e1", "e2"] (by decide)

/-- **C8 (confirmed).**  `dict_merge_reducer` — the declared reducer of the
symbol-keyed data fields `research_data`, `analyst_data`, `comparison_data`
and `trend_analysis` — is commutative as a Python-dict value whenever the
two sides' key sets are disjoint (keys unique on each side, as in any
genuine dict): merging A then B and B then A agree at every key. -/
theorem C8_dict_merge_disjoint_commutes {β : Type} [BEq β] [LawfulBEq β]
    (A B : Dict String β) (hA : (dkeys A).Nodup) (hB : (dkeys B).Nodup)
    (hdisj : ∀ k, k ∈ dkeys A → k ∉ dkeys B) :
    pyDictEq (dict_merge_reducer A B) (dict_merge_reducer B A) = true := by
  rw [dict_merge_reducer_disjoint_eq_append A B hB (fun k hb ha => hdisj k ha hb),
      dict_merge_reducer_disjoint_eq_append B A hA hdisj]
  exact pyDictEq_append_comm A B hA hB hdisj

/-- **C8 witness.**  Two disjoint one-symbol dicts merge to the same
Python-dict value in either order. -/
theorem C8_dict_merge_disjoint_commutes_witness :
    ((dkeys ([("AAPL", "a")] : Dict String String)).Nodup
      ∧ (dkeys ([("MSFT", "m")] : Dict String String)).Nodup
      ∧ ∀ k, k ∈ dkeys ([("AAPL", "a")] : Dict String String)
          → k ∉ dkeys ([("MSFT", "m")] : Dict String String))
    ∧ pyDictEq (dict_merge_reducer [("AAPL", "a")] [("MSFT", "m")])
        (dict_merge_reducer [("MSFT", "m")] [("AAPL", "a")]) = true := by
  have hd : ∀ k, k ∈ dkeys ([("AAPL", "a")] : Dict String String)
      → k ∉ dkeys ([("MSFT", "m")] : Dict String String) := by
    intro k hk
    simp only [dkeys, List.map_cons, List.map_nil, List.mem_singleton] at hk
    subst hk
    decide
  exact ⟨⟨by decide, by decide, hd⟩,
    C8_dict_merge_disjoint_commutes [("AAPL", "a")] [("MSFT", "m")]
      (by decide) (by decide) hd⟩

/-- **C9 (confirmed).**  Citation and error merging is an order-preserving
append with first-occurrence de-duplication: two branch states each carrying
the citation `{source: "Yahoo Finance", symbol: "AAPL", type: "price_data"}`
merge — via `ContextMerger.merge_citations` (keyed on (source, symbol,
type)) as well as via the declared `list_extend_reducer` — to exactly one
such citation; and for any states, `ContextMerger.merge_errors` yields a
duplicate-free sublist (hence order-preserving) of the concatenated error
lists containing exactly their messages. -/
theorem C9_citation_error_dedup :
    ContextMerger.merge_citations [sCitA, sCitB] = [yahooCitation]
    ∧ list_extend_reducer sCitA.citations sCitB.citations = [yahooCitation]
    ∧ ∀ states : List AgentState,
        (ContextMerger.merge_errors states).Nodup
        ∧ (ContextMerger.merge_errors states).Sublist
            (states.map AgentState.errors).flatten
        ∧ ∀ e, e ∈ ContextMerger.merge_errors states
            ↔ e ∈ (states.map AgentState.errors).flatten := by
  refine ⟨by decide, by decide, ?_⟩
  intro states
  rw [merge_errors_eq_foldl states]
  refine ⟨foldl_dedupStep_nodup _ [] (by simp), ?_, ?_⟩
  · obtain ⟨t, ht, hs⟩ := foldl_dedupStep_sublist (states.map AgentState.errors).flatten []
    rw [ht]
    simpa using hs
  · intro e
    rw [mem_foldl_dedupStep]
    simp

/-- **C1, counterexample.**  The reducer declared on `token_usage` in
`models/state.py` is `dict_merge_reducer`, which overwrites per stage-name
key: merging `token_usage["AnalystAgent"] = {total: 100}` with
`{total: 50}` through the declared reducer yields `{total: 50}`, not the
claimed `{total: 150}`. -/
theorem C1_declared_reducer_overwrites_counterexample :
    dict_merge_reducer [("AnalystAgent", (⟨0, 0, 100⟩ : TokenCounters))]
        [("AnalystAgent", (⟨0, 0, 50⟩ : TokenCounters))]
      = [("AnalystAgent", ⟨0, 0, 50⟩)]
    ∧ (dlookup
        (dict_merge_reducer [("AnalystAgent", (⟨0, 0, 100⟩ : TokenCounters))]
          [("AnalystAgent", (⟨0, 0, 50⟩ : TokenCounters))]) "AnalystAgent").map
          TokenCounters.total_tokens
      ≠ some 150 := by
  decide

/-- **C1 (amended).**  Per-key numeric summation holds for the fan-in
utility `ContextMerger.merge_token_usage` (used by the parallel research
fan-in), not for the declared field reducer: for every stage name present
in both branch states, each counter of the merged entry is the sum of the
two branches' counters. -/
theorem C1_merge_token_usage_sums (s1 s2 : AgentState) (name : String)
    (u1 u2 : TokenCounters)
    (h1 : dlookup s1.token_usage name = some u1)
    (h2 : dlookup s2.token_usage name = some u2)
    (hn1 : (dkeys s1.token_usage).Nodup)
    (hn2 : (dkeys s2.token_usage).Nodup) :
    dlookup (ContextMerger.merge_token_usage [s1, s2]) name
      = some ⟨u1.prompt_tokens + u2.prompt_tokens,
              u1.completion_tokens + u2.completion_tokens,
              u1.total_tokens + u2.total_tokens⟩ := by
  show dlookup
      (s2.token_usage.foldl
        (fun m2 p => dupdate m2 p.1 (addCounters ((dlookup m2 p.1).getD ⟨0, 0, 0⟩) p.2))
        (s1.token_usage.foldl
          (fun m2 p => dupdate m2 p.1 (addCounters ((dlookup m2 p.1).getD ⟨0, 0, 0⟩) p.2))
          [])) name = _
  rw [dlookup_foldl_tuStep _ _ _ hn2, dlookup_foldl_tuStep _ _ _ hn1, h1, h2]
  simp [dlookup, addCounters]

/-- **C1 witness.**  The spec's example through `merge_token_usage`:
100 + 50 = 150 total tokens for `AnalystAgent`. -/
theorem C1_merge_token_usage_sums_witness :
    (dlookup sTok100.token_usage "AnalystAgent" = some ⟨0, 0, 100⟩
      ∧ dlookup sTok50.token_usage "AnalystAgent" = some ⟨0, 0, 50⟩)
    ∧ dlookup (ContextMerger.merge_token_usage [sTok100, sTok50]) "AnalystAgent"
        = some ⟨0, 0, 150⟩ :=
  ⟨⟨by decide, by decide⟩,
    C1_merge_token_usage_sums sTok100 sTok50 "AnalystAgent" ⟨0, 0, 100⟩ ⟨0, 0, 50⟩
      (by decide) (by decide) (by decide) (by decide)⟩

/-- **C5 (confirmed).**  `_determine_query_type` derives the query type by
the fixed priority cascade, first match wins: filing intent beats
everything; otherwise comparison intent (an `is_comparison` flag or more
than one symbol) wins, with `is_comprehensive` only choosing the flavour;
then trend intent, then comprehensive, then the single-entity default.  In
particular flags with both `is_edgar` and `is_comparison` true classify as
`filing_analysis`. -/
theorem C5_query_type_priority (intent_flags : Dict String Bool) (symbols : List String) :
    (QueryIntentClassifier.get_flag intent_flags "is_edgar" = true →
        QueryIntentClassifier.determine_query_type intent_flags symbols = "filing_analysis")
    ∧ (QueryIntentClassifier.get_flag intent_flags "is_edgar" = false →
        (QueryIntentClassifier.get_flag intent_flags "is_comparison" = true
          ∨ 1 < symbols.length) →
        QueryIntentClassifier.determine_query_type intent_flags symbols
          = (if QueryIntentClassifier.get_flag intent_flags "is_comprehensive"
             then "comprehensive_comparison" else "comparison"))
    ∧ (QueryIntentClassifier.get_flag intent_flags "is_edgar" = false →
        QueryIntentClassifier.get_flag intent_flags "is_comparison" = false →
        symbols.length ≤ 1 →
        QueryIntentClassifier.get_flag intent_flags "is_trend" = true →
        QueryIntentClassifier.determine_query_type intent_flags symbols
          = (if QueryIntentClassifier.get_flag intent_flags "is_comprehensive"
             then "comprehensive_trend" else "trend"))
    ∧ (QueryIntentClassifier.get_flag intent_flags "is_edgar" = false →
        QueryIntentClassifier.get_flag intent_flags "is_comparison" = false →
        symbols.length ≤ 1 →
        QueryIntentClassifier.get_flag intent_flags "is_trend" = false →
        QueryIntentClassifier.get_flag intent_flags "is_comprehensive" = true →
        QueryIntentClassifier.determine_query_type intent_flags symbols
          = "comprehensive_analysis")
    ∧ (QueryIntentClassifier.get_flag intent_flags "is_edgar" = false →
        QueryIntentClassifier.get_flag intent_flags "is_comparison" = false →
        symbols.length ≤ 1 →
        QueryIntentClassifier.get_flag intent_flags "is_trend" = false →
        QueryIntentClassifier.get_flag intent_flags "is_comprehensive" = false →
        QueryIntentClassifier.determine_query_type intent_flags symbols
          = "single_entity") := by
  refine ⟨?_, ?_, ?_, ?_, ?_⟩
  · intro he
    simp [QueryIntentClassifier.determine_query_type, he]
  · intro he hc
    have hcc : (QueryIntentClassifier.get_flag intent_flags "is_comparison"
        || decide (symbols.length > 1)) = true := by
      rcases hc with h | h
      · simp [h]
      · simp [h]
    simp [QueryIntentClassifier.determine_query_type, he, hcc]
  · intro he hcmp hlen ht
    have h1 : decide (symbols.length > 1) = false := by
      simp only [decide_eq_false_iff_not, Nat.not_lt]
      exact hlen
    simp [QueryIntentClassifier.determine_query_type, he, hcmp, h1, ht]
  · intro he hcmp hlen ht hcp
    have h1 : decide (symbols.length > 1) = false := by
      simp only [decide_eq_false_iff_not, Nat.not_lt]
      exact hlen
    simp [QueryIntentClassifier.determine_query_type, he, hcmp, h1, ht, hcp]
  · intro he hcmp hlen ht hcp
    have h1 : decide (symbols.length > 1) = false := by
      simp only [decide_eq_false_iff_not, Nat.not_lt]
      exact hlen
    simp [QueryIntentClassifier.determine_query_type, he, hcmp, h1, ht, hcp]

/-- **C5 witness.**  Flags with both the filing and the comparison intent
set (as produced for a query containing both "10-K" and "compare AAPL vs
MSFT") classify as `filing_analysis`. -/
theorem C5_query_type_priority_witness :
    QueryIntentClassifier.get_flag [("is_edgar", true), ("is_comparison", true)] "is_edgar"
        = true
    ∧ QueryIntentClassifier.determine_query_type
        [("is_edgar", true), ("is_comparison", true)] ["AAPL", "MSFT"]
        = "filing_analysis" :=
  ⟨by decide,
    (C5_query_type_priority [("is_edgar", true), ("is_comparison", true)]
      ["AAPL", "MSFT"]).1 (by decide)⟩

/-- **C6, counterexample.**  The claim quantifies over states with a
*non-null* `query_type`; the empty string is non-null but falsy, and the
routing node then reclassifies: on a state with `query_type = ""` and
non-empty `intent_flags` the node is not a passthrough — it overwrites
`query_type` with the classifier's result. -/
theorem C6_empty_string_query_type_counterexample :
    sC6.query_type = some ""
    ∧ sC6.query_type ≠ none
    ∧ sC6.intent_flags = some [("is_trend", true)]
    ∧ (MyFinGPTWorkflow.route_advanced_agents parseNone sC6).query_type
        = some "single_entity"
    ∧ MyFinGPTWorkflow.route_advanced_agents parseNone sC6 ≠ sC6 := by
  decide

/-- **C6 (amended).**  For every state whose `query_type` is non-*empty*
(truthy, not merely non-null) and whose `intent_flags` is a non-empty
present mapping, the routing node is a no-op passthrough: it returns the
state itself, so `query_type`, `intent_flags` and `symbols` are unchanged. -/
theorem C6_truthy_passthrough
    (parse : String → Option QueryIntentClassifier.ParsedResult)
    (s : AgentState) (q : String) (fl : Dict String Bool)
    (hq : s.query_type = some q) (hq' : q ≠ "")
    (hf : s.intent_flags = some fl) (_hfl : fl ≠ []) :
    MyFinGPTWorkflow.route_advanced_agents parse s = s
    ∧ (MyFinGPTWorkflow.route_advanced_agents parse s).query_type = s.query_type
    ∧ (MyFinGPTWorkflow.route_advanced_agents parse s).intent_flags = s.intent_flags
    ∧ (MyFinGPTWorkflow.route_advanced_agents parse s).symbols = s.symbols := by
  have hcond : (pyTruthyOptStr s.query_type && s.intent_flags.isSome) = true := by
    rw [hq, hf]
    simp [pyTruthyOptStr, hq']
  have hmain : MyFinGPTWorkflow.route_advanced_agents parse s = s := by
    unfold MyFinGPTWorkflow.route_advanced_agents
    simp [hcond]
  exact ⟨hmain, by rw [hmain], by rw [hmain], by rw [hmain]⟩

/-- **C6 witness.**  A state pre-classified as `comparison` with non-empty
intent flags passes through unchanged. -/
theorem C6_truthy_passthrough_witness :
    (sPre.query_type = some "comparison"
      ∧ ("comparison" : String) ≠ ""
      ∧ sPre.intent_flags = some [("is_comparison", true)]
      ∧ ([("is_comparison", true)] : Dict String Bool) ≠ [])
    ∧ MyFinGPTWorkflow.route_advanced_agents parseNone sPre = sPre :=
  ⟨⟨rfl, by decide, rfl, by decide⟩,
    (C6_truthy_passthrough parseNone sPre "comparison" [("is_comparison", true)]
      rfl (by decide) rfl (by decide)).1⟩

/-- **C10 (confirmed).**  The routing node skips classification exactly when
the state's `query_type` is truthy *and* the `intent_flags` key is present
(even as an empty mapping); in every other case — in particular a truthy
`query_type` with no `intent_flags` key — it reclassifies, writing the
classifier's `query_type` and `intent_flags` into the state, and this can
overwrite the supplied `query_type` (concrete instance: `"comparison"`
becomes `"single_entity"`). -/
theorem C10_route_skip_characterization
    (parse : String → Option QueryIntentClassifier.ParsedResult) (s : AgentState) :
    ((pyTruthyOptStr s.query_type && s.intent_flags.isSome) = true →
        MyFinGPTWorkflow.route_advanced_agents parse s = s)
    ∧ ((pyTruthyOptStr s.query_type && s.intent_flags.isSome) = false →
        (MyFinGPTWorkflow.route_advanced_agents parse s).query_type
            = some (QueryIntentClassifier.classify parse (s.query.getD "")
                s.symbols).query_type
        ∧ (MyFinGPTWorkflow.route_advanced_agents parse s).intent_flags
            = some (QueryIntentClassifier.classify parse (s.query.getD "")
                s.symbols).intent_flags)
    ∧ ((MyFinGPTWorkflow.route_advanced_agents parseNone sC10).query_type
          = some "single_entity"
        ∧ sC10.query_type = some "comparison"
        ∧ sC10.intent_flags = none) := by
  refine ⟨?_, ?_, by decide⟩
  · intro hc
    unfold MyFinGPTWorkflow.route_advanced_agents
    simp [hc]
  · intro hc
    unfold MyFinGPTWorkflow.route_advanced_agents
    simp only [hc, Bool.false_eq_true, if_false]
    constructor <;> (split <;> rfl)

/-- **C10 witness.**  A truthy pre-classified state with its `intent_flags`
key present is returned untouched. -/
theorem C10_route_skip_characterization_witness :
    (pyTruthyOptStr sPre.query_type && sPre.intent_flags.isSome) = true
    ∧ MyFinGPTWorkflow.route_advanced_agents parseNone sPre = sPre :=
  ⟨by decide, (C10_route_skip_characterization parseNone sPre).1 (by decide)⟩

/-- **C2 (code bug).**  No gating by intent flags exists at request time:
`_build_edges` wires `route_advanced` to the comparison and trend nodes with
unconditional edges, and neither agent's `execute` reads `query_type` or
`intent_flags` (the `should_use_*` helpers of `QueryIntentClassifier` are
never called).  Evaluated at a request whose flags disable both optional
stages, both stages still run and produce output; the flags value is
irrelevant to the trend stage's output. -/
theorem C2_optional_stages_run_despite_unset_flags :
    (QueryIntentClassifier.get_flag flagsOff "is_trend" = false
      ∧ QueryIntentClassifier.get_flag flagsOff "is_comparison" = false
      ∧ sC2.intent_flags = some flagsOff)
    ∧ (TrendAgent.execute azStub 7 sC2).trend_analysis = [("AAPL", "uptrend-analysis")]
    ∧ ComparisonAgent.execute benchStub sideStub 7 sC2
        = .ok { sC2 with comparison_data := some "benchmark-result", updated_at := some 7 }
    ∧ ∀ fl : Option (Dict String Bool),
        (TrendAgent.execute azStub 7 { sC2 with intent_flags := fl }).trend_analysis
          = [("AAPL", "uptrend-analysis")] :=
  ⟨by decide, by decide, rfl, fun _ => rfl⟩

/-- **C3, counterexample.**  A state missing `query` does *not* abort the
remaining graph traversal: after the research stage fails validation, a
following trend stage still executes and appends its own validation error —
output produced by a stage after the validation failure, contradicting the
claimed immediate abort (while `research_data` indeed stays unpopulated). -/
theorem C3_later_stage_still_runs_counterexample :
    BaseAgent.validate_state sC3 = false
    ∧ (ResearchAgent.execute fpStub fiStub "ts" 7 sC3).research_data = []
    ∧ (ResearchAgent.execute fpStub fiStub "ts" 7 sC3).errors
        = ["Invalid state for ResearchAgent"]
    ∧ (TrendAgent.execute azStub 7 (ResearchAgent.execute fpStub fiStub "ts" 7 sC3)).errors
        = ["Invalid state for ResearchAgent", "Invalid state for TrendAgent"] := by
  decide

/-- **C3 (amended).**  A missing required field does not abort traversal;
instead every stage short-circuits *itself*: each agent's `execute` detects
the invalid state, appends its own `"Invalid state for <Agent>"` message and
returns the state otherwise unchanged — so no stage populates any data
field (`research_data` keeps its input value), but later stages still run
and each contributes its own validation error. -/
theorem C3_each_stage_short_circuits
    (fp fi : String → Except String String)
    (az : String → SymbolData → Except String String)
    (bench : String → Dict String SymbolData → Dict String String → String)
    (side : List String → Dict String SymbolData → Dict String String → String)
    (nowIso : String) (now : Nat) (s : AgentState)
    (h : BaseAgent.validate_state s = false) :
    ResearchAgent.execute fp fi nowIso now s
        = { s with errors := s.errors ++ ["Invalid state for ResearchAgent"] }
    ∧ TrendAgent.execute az now s
        = { s with errors := s.errors ++ ["Invalid state for TrendAgent"] }
    ∧ ComparisonAgent.execute bench side now s
        = .ok { s with errors := s.errors ++ ["Invalid state for ComparisonAgent"] }
    ∧ (TrendAgent.execute az now (ResearchAgent.execute fp fi nowIso now s)).research_data
        = s.research_data
    ∧ (TrendAgent.execute az now (ResearchAgent.execute fp fi nowIso now s)).errors
        = s.errors ++ ["Invalid state for ResearchAgent", "Invalid state for TrendAgent"] := by
  obtain ⟨tid, sid, q, sym, rd, ad, cd, ta, qt, fl, er, ci, tu, ca, ua⟩ := s
  have hr : ResearchAgent.execute fp fi nowIso now
        ⟨tid, sid, q, sym, rd, ad, cd, ta, qt, fl, er, ci, tu, ca, ua⟩
      = ⟨tid, sid, q, sym, rd, ad, cd, ta, qt, fl,
          er ++ ["Invalid state for ResearchAgent"], ci, tu, ca, ua⟩ := by
    unfold ResearchAgent.execute
    simp [h]
  have hv2 : BaseAgent.validate_state
      ⟨tid, sid, q, sym, rd, ad, cd, ta, qt, fl,
        er ++ ["Invalid state for ResearchAgent"], ci, tu, ca, ua⟩ = false := by
    simpa [BaseAgent.validate_state] using h
  have ht2 : TrendAgent.execute az now
        ⟨tid, sid, q, sym, rd, ad, cd, ta, qt, fl,
          er ++ ["Invalid state for ResearchAgent"], ci, tu, ca, ua⟩
      = ⟨tid, sid, q, sym, rd, ad, cd, ta, qt, fl,
          (er ++ ["Invalid state for ResearchAgent"]) ++ ["Invalid state for TrendAgent"],
          ci, tu, ca, ua⟩ := by
    unfold TrendAgent.execute
    simp [hv2]
  refine ⟨hr, ?_, ?_, ?_, ?_⟩
  · unfold TrendAgent.execute
    simp [h]
  · unfold ComparisonAgent.execute
    simp [h]
  · rw [hr, ht2]
  · rw [hr, ht2]
    simp

/-- **C3 witness.**  The short-circuit behaviour evaluated on a concrete
state missing `query`. -/
theorem C3_each_stage_short_circuits_witness :
    BaseAgent.validate_state sC3 = false
    ∧ TrendAgent.execute azStub 7 sC3
        = { sC3 with errors := ["Invalid state for TrendAgent"] } :=
  ⟨by decide,
    (C3_each_stage_short_circuits fpStub fiStub azStub benchStub sideStub "ts" 7 sC3
      (by decide)).2.1⟩

/-- **C4, counterexample.**  When the wrapped capability raises, the stage
wrapper `_research_node` emits the failed progress notification and then
*re-raises* — the exception crosses the stage boundary and the input state
is not returned. -/
theorem C4_wrapper_reraises_counterexample :
    MyFinGPTWorkflow.research_node (fun _ => .error "LLM timeout") sBase
      = ([.started "ResearchAgent" ["Gathering market data", "Fetching company information"],
          .failed "ResearchAgent" "LLM timeout"],
         .error "LLM timeout")
    ∧ (MyFinGPTWorkflow.research_node (fun _ => .error "LLM timeout") sBase).2
        ≠ .ok sBase := by
  refine ⟨rfl, ?_⟩
  intro hcontra
  exact Except.noConfusion hcontra

/-- **C4 (amended).**  Error capture lives one level below the wrapper: a
data-fetch failure for one symbol is caught inside `ResearchAgent.execute`,
its message appended to `errors`, and the loop continues with the remaining
symbols, returning a normal state — so nothing reaches the wrapper, which
then emits start/complete notifications and passes the state on.  (When an
exception does escape the agent, the wrapper emits the failed notification
and re-raises, per the counterexample.) -/
theorem C4_agent_level_error_capture
    (fp fi : String → Except String String) (nowIso : String) (now : Nat)
    (s : AgentState) (a b msg pb ib : String)
    (hv : BaseAgent.validate_state s = true)
    (hsym : s.symbols = [a, b])
    (hfa : fp a = .error msg)
    (hfb : fp b = .ok pb) (hib : fi b = .ok ib) :
    ResearchAgent.execute fp fi nowIso now s
      = { s with
            errors := s.errors ++ ["Failed to fetch data for " ++ a ++ ": " ++ msg],
            citations := s.citations ++ [⟨"Yahoo Finance", b, "price_data"⟩],
            research_data := [(b, ⟨pb, ib, "yahoo_finance", nowIso⟩)],
            updated_at := some now }
    ∧ MyFinGPTWorkflow.research_node
        (fun st => .ok (ResearchAgent.execute fp fi nowIso now st)) s
      = ([.started "ResearchAgent" ["Gathering market data", "Fetching company information"],
          .completed "ResearchAgent"],
         .ok (ResearchAgent.execute fp fi nowIso now s)) := by
  constructor
  · obtain ⟨tid, sid, q, sym, rd, ad, cd, ta, qt, fl, er, ci, tu, ca, ua⟩ := s
    simp only at hsym
    subst hsym
    unfold ResearchAgent.execute
    simp [hv, hfa, hfb, hib, dupdate]
  · rfl

/-- **C4 witness.**  Concrete two-symbol run: the AAPL fetch raises, the
error is recorded, MSFT is still fetched, and the wrapper sees a normal
completion. -/
theorem C4_agent_level_error_capture_witness :
    (BaseAgent.validate_state sC4 = true
      ∧ sC4.symbols = ["AAPL", "MSFT"]
      ∧ fpW "AAPL" = .error "boom"
      ∧ fpW "MSFT" = .ok "px"
      ∧ fiStub "MSFT" = .ok "info")
    ∧ ResearchAgent.execute fpW fiStub "ts" 7 sC4
      = { sC4 with
            errors := ["Failed to fetch data for AAPL: boom"],
            citations := [⟨"Yahoo Finance", "MSFT", "price_data"⟩],
            research_data := [("MSFT", ⟨"px", "info", "yahoo_finance", "ts"⟩)],
            updated_at := some 7 } := by
  refine ⟨⟨by decide, rfl, rfl, rfl, rfl⟩, ?_⟩
  exact (C4_agent_level_error_capture fpW fiStub "ts" 7 sC4 "AAPL" "MSFT" "boom" "px" "info"
    (by decide) rfl rfl rfl rfl).1
